import Mathlib

/-!
# ESP32 Temperature Datalogger — verification of the time-series data engine

Shallow embedding of the data-engine logic of the two firmware variants in
this repository:

* `ESP32_Temperature_Datalogger.ino` — single shared circular buffer
  `dataBuffer[DATA_BUFFER_SIZE]` with write cursor `dataBufferIndex` and
  valid-entry counter `dataBufferCount`; CSV persistence (`saveData` /
  `loadData`); chart window scan (`drawChartScreen`); table paging
  (`drawTableScreen`, `handleTableScroll`); `Preferences`-based settings.

* `ESP32_Temperature_Datalogger_Fixed.ino` — per-channel circular buffers
  with `dataCount[i]`, `currentDataIndex[i]`, `dataOverflow[i]`
  (`sensorTask`); JSON settings file (`save_settings` / `load_settings`).

C `int` variables are modelled as `Int` (their values provably stay far from
any 32-bit overflow), C `float` readings as `ℚ`, C arrays as functions
`Int → _` updated with `Function.update`, and timestamps (`time_t`,
seconds) as `Int`.  External library collaborators (SPIFFS, `localtime` /
`mktime`, `Preferences`) are modelled at the level of their documented
contracts, noted at each definition.
-/

/-- Capacity of the shared circular buffer in
`ESP32_Temperature_Datalogger.ino` (`#define DATA_BUFFER_SIZE 1000`). -/
def DATA_BUFFER_SIZE : Int := 1000

/-- Capacity of each per-channel buffer in
`ESP32_Temperature_Datalogger_Fixed.ino` (`#define MAX_DATA_POINTS 1000`). -/
def MAX_DATA_POINTS : Int := 1000

/-- Sentinel returned by the DallasTemperature library for a disconnected
probe (`DEVICE_DISCONNECTED_C = -127`). -/
def DEVICE_DISCONNECTED_C : ℚ := -127

/-- One record of the shared buffer: `struct TempData { time_t timestamp;
float temperatures[10]; }`.  The C array always has 10 slots; the list
models the meaningful prefix (entries `0 ..< sensorCount`), which is the
only part the code ever writes and reads. -/
structure TempData where
  timestamp : Int
  temperatures : List ℚ
deriving DecidableEq

/-- The shared circular-buffer state of the original sketch:
`TempData dataBuffer[DATA_BUFFER_SIZE]; int dataBufferIndex; int
dataBufferCount;`. -/
structure DataBufferState where
  dataBuffer : Int → TempData
  dataBufferIndex : Int
  dataBufferCount : Int

/-- The zero-initialised globals at boot (`dataBufferIndex = 0`,
`dataBufferCount = 0`, buffer contents zeroed static storage). -/
def emptyDataBuffer : DataBufferState :=
  { dataBuffer := fun _ => ⟨0, []⟩, dataBufferIndex := 0, dataBufferCount := 0 }

/-- The circular-buffer part of `readSensors` (lines 249–254):
`dataBuffer[dataBufferIndex] = newData; dataBufferIndex = (dataBufferIndex
+ 1) % DATA_BUFFER_SIZE; if (dataBufferCount < DATA_BUFFER_SIZE)
dataBufferCount++;`. -/
def readSensorsStore (st : DataBufferState) (newData : TempData) : DataBufferState :=
  { dataBuffer := Function.update st.dataBuffer st.dataBufferIndex newData
    dataBufferIndex := (st.dataBufferIndex + 1) % DATA_BUFFER_SIZE
    dataBufferCount :=
      if st.dataBufferCount < DATA_BUFFER_SIZE then st.dataBufferCount + 1
      else st.dataBufferCount }

/-- State after appending a whole history `h` of samples, oldest first,
starting from the boot state. -/
def appendAll (h : List TempData) : DataBufferState :=
  h.foldl readSensorsStore emptyDataBuffer

/-- The buffer slot the code uses for the `i`-th most recent entry:
`(dataBufferIndex - i - 1 + DATA_BUFFER_SIZE) % DATA_BUFFER_SIZE`
(as in `drawMainScreen`, `drawChartScreen`, `drawTableScreen`,
`saveData`). -/
def nthNewestSlot (st : DataBufferState) (i : Int) : Int :=
  (st.dataBufferIndex - i - 1 + DATA_BUFFER_SIZE) % DATA_BUFFER_SIZE

/-- The entry the code treats as most recent (`dataBuffer[(dataBufferIndex
- 1 + DATA_BUFFER_SIZE) % DATA_BUFFER_SIZE]`, used by `drawMainScreen` and
`saveData`). -/
def latestEntry (st : DataBufferState) : TempData :=
  st.dataBuffer (nthNewestSlot st 0)

/-- Abstraction: of a history `h` the store can retain only the last
`DATA_BUFFER_SIZE` samples, oldest first. -/
def retainedOldestFirst (h : List TempData) : List TempData :=
  h.drop (h.length - 1000)

/-- The retained history, newest first. -/
def retainedNewestFirst (h : List TempData) : List TempData :=
  (retainedOldestFirst h).reverse

/-- The logical content of a buffer state, oldest first: entry `j` counted
from the oldest retained one lives in slot
`(dataBufferIndex - dataBufferCount + j + DATA_BUFFER_SIZE) %
DATA_BUFFER_SIZE`. -/
def retainedList (st : DataBufferState) : List TempData :=
  (List.range st.dataBufferCount.toNat).map fun (j : Nat) =>
    st.dataBuffer
      ((st.dataBufferIndex - st.dataBufferCount + (j : Int) + DATA_BUFFER_SIZE) % DATA_BUFFER_SIZE)

/-- The sample-visiting loop of `drawChartScreen` (lines 701–712 and
747–770): `for (int i = 0; i < dataBufferCount; i++) { int idx =
(dataBufferIndex - i - 1 + DATA_BUFFER_SIZE) % DATA_BUFFER_SIZE; if
(dataBuffer[idx].timestamp >= startTime && dataBuffer[idx].timestamp <=
now) ... }` — the list of entries the loop's body processes, in loop
order. -/
def chartVisits (st : DataBufferState) (startTime now : Int) : List TempData :=
  (List.range st.dataBufferCount.toNat).filterMap fun (i : Nat) =>
    let d := st.dataBuffer (nthNewestSlot st (i : Int))
    if startTime ≤ d.timestamp ∧ d.timestamp ≤ now then some d else none

/-- One stored reading in the Fixed variant: `struct SensorData { float
temperature; time_t timestamp; }`. -/
structure SensorData where
  temperature : ℚ
  timestamp : Int
deriving DecidableEq

/-- The per-channel circular-buffer state of the Fixed variant
(`tempData.data[i]`, `dataCount[i]`, `currentDataIndex[i]`,
`dataOverflow[i]`). -/
structure ChannelState where
  data : Int → SensorData
  dataCount : Int
  currentDataIndex : Int
  dataOverflow : Bool

/-- Per-channel state at boot: the `TempData tempData` global is
zero-initialised static storage. -/
def emptyChannel : ChannelState :=
  { data := fun _ => ⟨0, 0⟩, dataCount := 0, currentDataIndex := 0,
    dataOverflow := false }

/-- One accepted append of `sensorTask` in the Fixed variant (lines
120–132): store at `currentDataIndex`, advance the cursor, wrap to 0 and
set `dataOverflow` when it reaches `MAX_DATA_POINTS`, and increment
`dataCount` while below capacity.  (The surrounding code performs this
only when the reading is not `DEVICE_DISCONNECTED_C`; the appended
readings are the accepted ones.) -/
def sensorTaskAppend (ch : ChannelState) (temp : ℚ) (ts : Int) : ChannelState :=
  if ch.currentDataIndex + 1 ≥ MAX_DATA_POINTS then
    { data := Function.update ch.data ch.currentDataIndex ⟨temp, ts⟩
      dataCount := if ch.dataCount < MAX_DATA_POINTS then ch.dataCount + 1 else ch.dataCount
      currentDataIndex := 0
      dataOverflow := true }
  else
    { data := Function.update ch.data ch.currentDataIndex ⟨temp, ts⟩
      dataCount := if ch.dataCount < MAX_DATA_POINTS then ch.dataCount + 1 else ch.dataCount
      currentDataIndex := ch.currentDataIndex + 1
      dataOverflow := ch.dataOverflow }

/-- Channel state after a sequence of accepted appends, oldest first. -/
def channelAppendAll (samples : List (ℚ × Int)) : ChannelState :=
  samples.foldl (fun ch p => sensorTaskAppend ch p.1 p.2) emptyChannel

/-- The most recent entry of a channel: the slot at `currentDataIndex - 1`
modulo `MAX_DATA_POINTS` (the index form `(currentDataIndex - k +
MAX_DATA_POINTS) % MAX_DATA_POINTS` with `k = 1`, as used by
`update_chart` and `update_table`). -/
def channelLatest (ch : ChannelState) : SensorData :=
  ch.data ((ch.currentDataIndex - 1 + MAX_DATA_POINTS) % MAX_DATA_POINTS)

/-- The clear-data action of the Fixed variant's settings screen
(`create_settings_screen`, lines 774–782): for every channel,
`dataCount[i] = 0; currentDataIndex[i] = 0; dataOverflow[i] = false;`. -/
def clearChannelData (ch : ChannelState) : ChannelState :=
  { ch with dataCount := 0, currentDataIndex := 0, dataOverflow := false }

/-- Value of one `print(float)` / `String(float, digits)` call: the
Arduino core prints `digits` decimal places after adding a half-unit of
the last digit (`rounding = 0.5 / 10^digits`) and truncating, with the
sign handled first.  The numeric value carried by the printed text is
therefore the argument rounded half-up at `digits` decimals.  `saveData`
prints temperatures with the default 2 digits; `drawTableScreen` uses
`String(temp, 1)`. -/
def printFloatVal (digits : Nat) (q : ℚ) : ℚ :=
  if q < 0 then -((⌊(-q) * (10 : ℚ) ^ digits + 1 / 2⌋ : ℚ) / (10 : ℚ) ^ digits)
  else (⌊q * (10 : ℚ) ^ digits + 1 / 2⌋ : ℚ) / (10 : ℚ) ^ digits

/-- One comma-separated temperature token of a log line, at field
granularity: either a well-formed decimal carrying value `q`, or a
malformed token.  `String::toFloat` (an `atof` wrapper) returns the
parsed value for a well-formed token and `0.0` for a malformed one. -/
inductive CsvField where
  | num : ℚ → CsvField
  | garbage
deriving DecidableEq

/-- The value `line.substring(start, end).toFloat()` produces for a
token (`loadData`, line 560): the parsed value, or `0.0` on garbage. -/
def csvFieldValue : CsvField → ℚ
  | .num q => q
  | .garbage => 0

/-- `mktime` applied to the zero-initialised, then adjusted `struct tm`
that results when `sscanf` matches nothing: the resulting calendar time
(year 0, month −1, …) is unrepresentable and newlib `mktime` returns −1.
The exact value is irrelevant to every theorem below; what matters is
that a record carrying it is still inserted. -/
def mktimeOutOfRange : Int := -1

/-- The timestamp token of a log line: either a well-formed
`"%Y-%m-%d %H:%M:%S"` text produced by `strftime(localtime(t))` from an
epoch second `t` — `sscanf` + the year/month adjustments + `mktime`
recover exactly `t`, since `mktime` inverts `localtime` under the single
time zone (UTC, `configTime(0, 0, …)`) the firmware configures — or a
malformed token. -/
inductive TimeField where
  | stamp : Int → TimeField
  | garbage
deriving DecidableEq

/-- The epoch value `loadData` computes from the timestamp token
(lines 540–547). -/
def parseTimeField : TimeField → Int
  | .stamp t => t
  | .garbage => mktimeOutOfRange

/-- One line of `/temp_data.txt`: blank, or a timestamp token followed by
comma-separated temperature tokens. -/
inductive LogLine where
  | blank
  | line : TimeField → List CsvField → LogLine
deriving DecidableEq

/-- The content of a non-blank line (`loadData` skips a line exactly when
`line.length() == 0` after trimming). -/
def lineFields : LogLine → Option (TimeField × List CsvField)
  | .blank => none
  | .line tf fs => some (tf, fs)

/-- The record `loadData` builds from one non-blank line (lines 535–564):
parse the timestamp token, then parse up to 10 temperature tokens with
`toFloat`. -/
def parseLinePair (p : TimeField × List CsvField) : TempData :=
  ⟨parseTimeField p.1, (p.2.take 10).map csvFieldValue⟩

/-- One iteration of the `loadData` read loop (lines 529–570): while
`dataBufferCount < DATA_BUFFER_SIZE`, read a line; skip it if blank;
otherwise parse it, store it at `dataBufferIndex`, advance
`dataBufferIndex = (dataBufferIndex + 1) % DATA_BUFFER_SIZE` and
increment `dataBufferCount`.  Once the count reaches capacity the loop
exits, so the remaining lines are ignored. -/
def loadStep (st : DataBufferState) (l : LogLine) : DataBufferState :=
  if st.dataBufferCount < DATA_BUFFER_SIZE then
    match lineFields l with
    | none => st
    | some p =>
        { dataBuffer := Function.update st.dataBuffer st.dataBufferIndex (parseLinePair p)
          dataBufferIndex := (st.dataBufferIndex + 1) % DATA_BUFFER_SIZE
          dataBufferCount := st.dataBufferCount + 1 }
  else st

/-- `loadData` (lines 519–575): reset `dataBufferCount = 0` and
`dataBufferIndex = 0`, then run the read loop over the stored lines in
file order (the buffer array itself is not cleared). -/
def loadData (st : DataBufferState) (log : List LogLine) : DataBufferState :=
  log.foldl loadStep { st with dataBufferCount := 0, dataBufferIndex := 0 }

/-- The CSV line `saveData` appends (lines 495–517): the timestamp of the
latest buffer entry formatted with `strftime`, then the first
`sensorCount` temperatures of that entry printed with `print(float)`
(2 decimal places). -/
def saveDataLine (sensorCount : Nat) (st : DataBufferState) : LogLine :=
  .line (.stamp (latestEntry st).timestamp)
    (((latestEntry st).temperatures.take sensorCount).map fun t =>
      .num (printFloatVal 2 t))

/-- One acquisition cycle's effect on (buffer state, persisted log):
`readSensors` appends the new sample to the ring buffer and then calls
`saveData`, which appends one line for the latest entry to
`/temp_data.txt` (write-through, `FILE_APPEND`). -/
def acquireAndSave (sensorCount : Nat) (acc : DataBufferState × List LogLine)
    (s : TempData) : DataBufferState × List LogLine :=
  (readSensorsStore acc.1 s,
    acc.2 ++ [saveDataLine sensorCount (readSensorsStore acc.1 s)])

/-- Buffer state and persisted log after `N` acquisition cycles starting
from boot state and an empty log file. -/
def runAcquisitions (sensorCount : Nat) (h : List TempData) :
    DataBufferState × List LogLine :=
  h.foldl (acquireAndSave sensorCount) (emptyDataBuffer, [])

/-- The line `saveData` writes for a freshly appended sample, expressed
as a function of that sample. -/
def serializeSample (sensorCount : Nat) (s : TempData) : LogLine :=
  .line (.stamp s.timestamp)
    ((s.temperatures.take sensorCount).map fun t => .num (printFloatVal 2 t))

/-- A sample with each of its first `sensorCount` readings replaced by its
2-decimal rounding — what one write/replay round trip preserves of it. -/
def roundSample (sensorCount : Nat) (s : TempData) : TempData :=
  ⟨s.timestamp, (s.temperatures.take sensorCount).map (printFloatVal 2)⟩

/-- The data-engine-relevant calls `setup()` makes (lines 123–195), in
order: `loadSettings()`, `setupSensors()`, `connectToWiFi()` (when WiFi is
enabled), `configTime(...)`, then task creation.  Display, SPIFFS mount,
ADC and touch initialisation are hardware concerns with no data-engine
effect and are omitted.  `loadData()` is declared (line 115) and defined
(line 519) but called from nowhere in the sketch. -/
inductive CoreCall where
  | loadSettingsCall
  | setupSensorsCall
  | connectToWiFiCall
  | configTimeCall
  | loadDataCall
  | saveDataCall
deriving DecidableEq

/-- The sequence of data-engine-relevant calls in `setup()`. -/
def setupCalls : List CoreCall :=
  [.loadSettingsCall, .setupSensorsCall, .connectToWiFiCall, .configTimeCall]

/-- `maxTableScroll` as computed by `drawTableScreen` (line 810):
`max(0, dataBufferCount - 10)` — 10 rows are visible at a time. -/
def maxTableScrollOf (dataBufferCount : Int) : Int :=
  max 0 (dataBufferCount - 10)

/-- `handleTableScroll(direction)` (lines 863–867):
`tableScrollOffset += direction; if (tableScrollOffset < 0)
tableScrollOffset = 0; if (tableScrollOffset > maxTableScroll)
tableScrollOffset = maxTableScroll;` expressed as the value of
`tableScrollOffset` after the call. -/
def handleTableScroll (tableScrollOffset direction maxTableScroll : Int) : Int :=
  if tableScrollOffset + direction < 0 then
    if (0 : Int) > maxTableScroll then maxTableScroll else 0
  else if tableScrollOffset + direction > maxTableScroll then maxTableScroll
  else tableScrollOffset + direction

/-- The rows `drawTableScreen` renders (lines 825–846): for each visible
row 0..9, `dataIndex = tableScrollOffset + row`; the row is populated
exactly when `dataIndex < dataBufferCount`, from the buffer slot
`(dataBufferIndex - dataIndex - 1 + DATA_BUFFER_SIZE) %
DATA_BUFFER_SIZE`. -/
def tableVisibleRows (st : DataBufferState) (tableScrollOffset : Int) : List TempData :=
  (List.range 10).filterMap fun (row : Nat) =>
    if tableScrollOffset + (row : Int) < st.dataBufferCount then
      some (st.dataBuffer (nthNewestSlot st (tableScrollOffset + (row : Int))))
    else none

/-- The scroll-up indicator condition of `drawTableScreen` (line 849):
drawn exactly when `tableScrollOffset > 0`. -/
def scrollUpShown (tableScrollOffset : Int) : Bool :=
  tableScrollOffset > 0

/-- The scroll-down indicator condition of `drawTableScreen` (line 852):
drawn exactly when `tableScrollOffset < maxTableScroll`. -/
def scrollDownShown (tableScrollOffset maxTableScroll : Int) : Bool :=
  tableScrollOffset < maxTableScroll

/-- What a table cell displays: a numeric string or the `"---"` marker. -/
inductive Cell where
  | num : ℚ → Cell
  | dashes
deriving DecidableEq

/-- Cell rendering of one reading in `drawTableScreen` (lines 837–843):
`if (temp != DEVICE_DISCONNECTED_C) drawString(String(temp, 1)) else
drawString("---")`. -/
def renderTemp (t : ℚ) : Cell :=
  if t ≠ DEVICE_DISCONNECTED_C then .num (printFloatVal 1 t) else .dashes

/-- One min/max update of the chart scaling scan (lines 706–707):
`if (temp < minTemp) minTemp = temp; if (temp > maxTemp) maxTemp =
temp;`. -/
def minMaxStep (mm : ℚ × ℚ) (t : ℚ) : ℚ × ℚ :=
  (if t < mm.1 then t else mm.1, if t > mm.2 then t else mm.2)

/-- The axis-scaling scan of `drawChartScreen` (lines 698–712): starting
from `minTemp = 1000, maxTemp = -1000`, walk every retained sample; for
each one inside the window, fold every reading of the first
`sensorCount` channels that is not `DEVICE_DISCONNECTED_C` through the
min/max update. -/
def chartMinMax (st : DataBufferState) (startTime now : Int) (sensorCount : Nat) :
    ℚ × ℚ :=
  (List.range st.dataBufferCount.toNat).foldl
    (fun mm (i : Nat) =>
      let d := st.dataBuffer (nthNewestSlot st (i : Int))
      if startTime ≤ d.timestamp ∧ d.timestamp ≤ now then
        (d.temperatures.take sensorCount).foldl
          (fun mm t => if t ≠ DEVICE_DISCONNECTED_C then minMaxStep mm t else mm) mm
      else mm)
    (1000, -1000)

/-- The connected (not `DEVICE_DISCONNECTED_C`) readings of the in-window
samples, in scan order — the only values the claim allows the min/max
computation to depend on. -/
def connectedReadings (st : DataBufferState) (startTime now : Int)
    (sensorCount : Nat) : List ℚ :=
  (chartVisits st startTime now).flatMap fun d =>
    (d.temperatures.take sensorCount).filter fun t =>
      decide (t ≠ DEVICE_DISCONNECTED_C)

/-- Acquisition times of `sensorTask` (`while (true) { readSensors();
updateBattery(); delay(sampleInterval * 1000); }`, lines 203–214 of the
original, 110–139 of the Fixed variant): cycle 0 fires at time 0; the
`delay` duration is fixed when the call starts — the value the mutable
`sampleInterval` global holds at that moment — so cycle k+1 fires at
`fire k + interval-at-time (fire k)`.  Time is in seconds; the
acquisition itself is modelled as instantaneous, which only shifts all
times equally and does not affect which interval value each delay
uses. -/
def sensorTaskFireTimes (sampleIntervalAt : Int → Int) : Nat → Int
  | 0 => 0
  | k + 1 =>
      sensorTaskFireTimes sampleIntervalAt k +
        sampleIntervalAt (sensorTaskFireTimes sampleIntervalAt k)

/-- An interval setting that is changed once, at `changeTime`: the
`sampleInterval` global reads `oldVal` before it and `newVal` from then
on. -/
def stepSignal (changeTime oldVal newVal : Int) : Int → Int :=
  fun t => if t < changeTime then oldVal else newVal

/-- The `Settings` struct of the Fixed variant (lines 90–102). -/
structure FixedSettings where
  sampleInterval : Int
  deepSleepEnabled : Bool
  touchCalibration : List Int
  batteryCalibration : List ℚ
  wifiSSID : String
  wifiPassword : String
  hotspotSSID : String
  hotspotPassword : String
  hotspotEnabled : Bool
  sensorNames : List String
  sensorCount : Int
deriving DecidableEq

/-- The values `load_settings` assigns when `/settings.json` opens
(lines 850–869): hard-coded defaults, regardless of the file's
content. -/
def defaultFixedSettings : FixedSettings :=
  { sampleInterval := 60
    deepSleepEnabled := true
    touchCalibration := List.replicate 5 0
    batteryCalibration := [3, 21/5]
    wifiSSID := ""
    wifiPassword := ""
    hotspotSSID := "ESP32_TempLogger"
    hotspotPassword := "12345678"
    hotspotEnabled := false
    sensorNames := List.replicate 10 ""
    sensorCount := 1 }

/-- The zero-initialised global `Settings settings` at boot (static
storage: ints 0, bools false, strings empty). -/
def zeroFixedSettings : FixedSettings :=
  { sampleInterval := 0
    deepSleepEnabled := false
    touchCalibration := List.replicate 5 0
    batteryCalibration := [0, 0]
    wifiSSID := ""
    wifiPassword := ""
    hotspotSSID := ""
    hotspotPassword := ""
    hotspotEnabled := false
    sensorNames := List.replicate 10 ""
    sensorCount := 0 }

/-- `save_settings` (lines 793–839): serialises the full settings struct
as JSON into `/settings.json`.  The file content is modelled by the
settings value the JSON encodes (the encoding is injective on the
modelled fields), since nothing in the program ever parses it back. -/
def save_settings (_fs : Option FixedSettings) (s : FixedSettings) :
    Option FixedSettings :=
  some s

/-- `load_settings` (lines 842–877), acting on the current global
`settings` value and the file system: when `/settings.json` opens, the
function ignores the file's content entirely and assigns the hard-coded
defaults ("For simplicity, we'll set default values here"); when the
file is absent it assigns nothing, leaving the global unchanged. -/
def load_settings (current : FixedSettings) (fs : Option FixedSettings) :
    FixedSettings :=
  match fs with
  | some _ => defaultFixedSettings
  | none => current

/-- The bounds invariant of the shared buffer's cursor and count:
`0 ≤ dataBufferIndex < DATA_BUFFER_SIZE` and
`0 ≤ dataBufferCount ≤ DATA_BUFFER_SIZE`. -/
def RingInv (st : DataBufferState) : Prop :=
  0 ≤ st.dataBufferIndex ∧ st.dataBufferIndex < DATA_BUFFER_SIZE ∧
    0 ≤ st.dataBufferCount ∧ st.dataBufferCount ≤ DATA_BUFFER_SIZE

/-- The bounds invariant of a per-channel buffer in the Fixed variant. -/
def ChannelInv (ch : ChannelState) : Prop :=
  0 ≤ ch.currentDataIndex ∧ ch.currentDataIndex < MAX_DATA_POINTS ∧
    0 ≤ ch.dataCount ∧ ch.dataCount ≤ MAX_DATA_POINTS

/-- The keys the original sketch's `saveSettings` / `loadSettings` use in
the `Preferences` ("temp_logger") namespace.  The string keys of the code
are in bijection with these constructors; `sensorName i` stands for
`"sensor_" + String(i)`. -/
inductive PrefKey where
  | wifi_enabled
  | ssid
  | password
  | sensor_count
  | sensorName : Int → PrefKey
  | sample_interval
  | deep_sleep
  | touch_cal_min_x
  | touch_cal_min_y
  | touch_cal_max_x
  | touch_cal_max_y
deriving DecidableEq

/-- A typed `Preferences` value (putBool / putInt / putString). -/
inductive PrefVal where
  | pb : Bool → PrefVal
  | pi : Int → PrefVal
  | ps : String → PrefVal
deriving DecidableEq

/-- The `Preferences` key-value store, modelled per its contract: `putX`
overwrites the entry for a key, `getX` returns the stored value when one
of the right type exists and the supplied default otherwise. -/
abbrev PrefStore := List (PrefKey × PrefVal)

/-- `preferences.putX(key, v)` — newest binding first; lookups read the
newest. -/
def prefPut (st : PrefStore) (k : PrefKey) (v : PrefVal) : PrefStore :=
  (k, v) :: st

/-- The newest binding for a key, if any. -/
def prefFind (st : PrefStore) (k : PrefKey) : Option PrefVal :=
  match st with
  | [] => none
  | (k', v) :: rest => if k = k' then some v else prefFind rest k

/-- `preferences.getBool(key, default)`. -/
def prefGetBool (st : PrefStore) (k : PrefKey) (d : Bool) : Bool :=
  match prefFind st k with
  | some (.pb b) => b
  | _ => d

/-- `preferences.getInt(key, default)`. -/
def prefGetInt (st : PrefStore) (k : PrefKey) (d : Int) : Int :=
  match prefFind st k with
  | some (.pi n) => n
  | _ => d

/-- `preferences.getString(key, default)`. -/
def prefGetString (st : PrefStore) (k : PrefKey) (d : String) : String :=
  match prefFind st k with
  | some (.ps s) => s
  | _ => d

/-- The settings globals of the original sketch that `saveSettings` /
`loadSettings` persist (lines 71–97). -/
structure OrigSettings where
  wifiEnabled : Bool
  ssid : String
  password : String
  sensorCount : Int
  sensorNames : List String
  sampleInterval : Int
  deepSleepEnabled : Bool
  touchCalMinX : Int
  touchCalMinY : Int
  touchCalMaxX : Int
  touchCalMaxY : Int
deriving DecidableEq

/-- The `for (i = 0; i < sensorCount; i++) putString("sensor_" + i,
sensorNames[i])` loop of `saveSettings` (lines 460–463). -/
def putSensorNames (st : PrefStore) (names : List String) (count : Nat) : PrefStore :=
  (List.range count).foldl
    (fun acc (i : Nat) => prefPut acc (.sensorName (i : Int)) (.ps (names.getD i ""))) st

/-- `saveSettings` (lines 453–472): the puts in program order. -/
def saveSettingsStore (st0 : PrefStore) (g : OrigSettings) : PrefStore :=
  prefPut (prefPut (prefPut (prefPut (prefPut (prefPut
    (putSensorNames
      (prefPut (prefPut (prefPut (prefPut st0
        .wifi_enabled (.pb g.wifiEnabled))
        .ssid (.ps g.ssid))
        .password (.ps g.password))
        .sensor_count (.pi g.sensorCount))
      g.sensorNames g.sensorCount.toNat)
    .sample_interval (.pi g.sampleInterval))
    .deep_sleep (.pb g.deepSleepEnabled))
    .touch_cal_min_x (.pi g.touchCalMinX))
    .touch_cal_min_y (.pi g.touchCalMinY))
    .touch_cal_max_x (.pi g.touchCalMaxX))
    .touch_cal_max_y (.pi g.touchCalMaxY)

/-- `loadSettings` (lines 474–493): every field read with its hard-coded
default; names are read for indices below the loaded `sensor_count` (with
default `"Sensor " + (i+1)`) and left at their prior values above it.
The 10-slot `sensorNames` array is `priorNames`. -/
def loadSettingsStore (st : PrefStore) (priorNames : List String) : OrigSettings :=
  { wifiEnabled := prefGetBool st .wifi_enabled true
    ssid := prefGetString st .ssid ""
    password := prefGetString st .password ""
    sensorCount := prefGetInt st .sensor_count 0
    sensorNames := (List.range 10).map fun (i : Nat) =>
      if (i : Int) < prefGetInt st .sensor_count 0 then
        prefGetString st (.sensorName (i : Int)) ("Sensor " ++ toString (i + 1))
      else priorNames.getD i ""
    sampleInterval := prefGetInt st .sample_interval 60
    deepSleepEnabled := prefGetBool st .deep_sleep true
    touchCalMinX := prefGetInt st .touch_cal_min_x 380
    touchCalMinY := prefGetInt st .touch_cal_min_y 240
    touchCalMaxX := prefGetInt st .touch_cal_max_x 3800
    touchCalMaxY := prefGetInt st .touch_cal_max_y 3800 }

theorem appendAll_append (h : List TempData) (x : TempData) :
    appendAll (h ++ [x]) = readSensorsStore (appendAll h) x := by
  simp [appendAll, List.foldl_append]

theorem appendAll_index (h : List TempData) :
    (appendAll h).dataBufferIndex = (h.length : Int) % 1000 := by
  induction h using List.reverseRecOn with
  | nil => simp [appendAll, emptyDataBuffer]
  | append_singleton l x ih =>
      rw [appendAll_append]
      simp only [readSensorsStore, ih, DATA_BUFFER_SIZE, List.length_append,
        List.length_singleton]
      push_cast
      omega

theorem appendAll_count (h : List TempData) :
    (appendAll h).dataBufferCount = ((min h.length 1000 : Nat) : Int) := by
  induction h using List.reverseRecOn with
  | nil => simp [appendAll, emptyDataBuffer]
  | append_singleton l x ih =>
      rw [appendAll_append]
      simp only [readSensorsStore, ih, DATA_BUFFER_SIZE, List.length_append,
        List.length_singleton]
      have h1 : min l.length 1000 ≤ 1000 := by omega
      by_cases hc : l.length < 1000
      · rw [if_pos (by push_cast; omega)]
        push_cast
        omega
      · rw [if_neg (by push_cast; omega)]
        push_cast
        omega

theorem appendAll_nthNewest (h : List TempData) (i : Nat)
    (hi : i < min h.length 1000) :
    (appendAll h).dataBuffer (nthNewestSlot (appendAll h) (i : Int)) =
      h.getD (h.length - 1 - i) ⟨0, []⟩ := by
  induction h using List.reverseRecOn generalizing i with
  | nil => simp at hi
  | append_singleton l x ih =>
      have hJ := appendAll_index l
      have hJ1 : 0 ≤ (l.length : Int) % 1000 := by omega
      have hJ2 : (l.length : Int) % 1000 < 1000 := by omega
      rw [appendAll_append]
      rcases Nat.eq_zero_or_pos i with hi0 | hip
      · subst hi0
        have hslot : nthNewestSlot (readSensorsStore (appendAll l) x) ((0 : Nat) : Int) =
            (appendAll l).dataBufferIndex := by
          simp only [nthNewestSlot, readSensorsStore, DATA_BUFFER_SIZE, hJ]
          omega
        rw [hslot]
        simp only [readSensorsStore, Function.update_same]
        simp
      · -- i ≥ 1: the new write does not touch the slot of the i-th newest
        have hib : i < 1000 := by omega
        have hil : i < l.length + 1 := by
          simp only [List.length_append, List.length_singleton] at hi
          omega
        have hslot : nthNewestSlot (readSensorsStore (appendAll l) x) (i : Int) =
            nthNewestSlot (appendAll l) ((i : Int) - 1) := by
          simp only [nthNewestSlot, readSensorsStore, DATA_BUFFER_SIZE, hJ]
          omega
        have hne : nthNewestSlot (appendAll l) ((i : Int) - 1) ≠
            (appendAll l).dataBufferIndex := by
          simp only [nthNewestSlot, DATA_BUFFER_SIZE, hJ]
          omega
        rw [hslot]
        simp only [readSensorsStore, Function.update_apply, if_neg hne]
        have hcast : ((i : Int) - 1) = ((i - 1 : Nat) : Int) := by omega
        rw [hcast]
        rw [ih (i - 1) (by omega)]
        have h1 : l.length - 1 - (i - 1) = l.length - i := by omega
        have h2 : l.length + 1 - 1 - i = l.length - i := by simp
        rw [h1]
        rw [List.length_append, List.length_singleton, h2]
        have h3 : l.length - i < l.length := by omega
        simp [List.getD, List.getElem?_append_left h3]

theorem retainedNewestFirst_length (h : List TempData) :
    (retainedNewestFirst h).length = min h.length 1000 := by
  simp [retainedNewestFirst, retainedOldestFirst]
  omega

theorem list_getD_eq {α : Type} (l : List α) (i : Nat)
    (h : i < l.length) (d : α) : l.getD i d = l[i] := by
  simp [List.getD, List.getElem?_eq_getElem h]

theorem retainedNewestFirst_getD (h : List TempData) (i : Nat)
    (hi : i < min h.length 1000) :
    (retainedNewestFirst h).getD i ⟨0, []⟩ = h.getD (h.length - 1 - i) ⟨0, []⟩ := by
  have hlen : (retainedNewestFirst h).length = min h.length 1000 :=
    retainedNewestFirst_length h
  have hi' : i < (retainedNewestFirst h).length := by omega
  have hlt : h.length - 1 - i < h.length := by omega
  rw [list_getD_eq _ _ hi', list_getD_eq _ _ hlt]
  simp only [retainedNewestFirst] at hi' ⊢
  rw [List.getElem_reverse]
  simp only [retainedOldestFirst] at *
  rw [List.getElem_drop]
  have hidx : h.length - 1000 + ((h.drop (h.length - 1000)).length - 1 - i) =
      h.length - 1 - i := by
    simp only [List.length_drop]
    simp only [List.length_reverse, List.length_drop] at hi'
    omega
  simp only [hidx]

/-- The map sending loop position `i` to the `i`-th most recent retained
entry agrees with `retainedNewestFirst`. -/
theorem map_nthNewest_eq (h : List TempData) :
    ((List.range (appendAll h).dataBufferCount.toNat).map fun (i : Nat) =>
        (appendAll h).dataBuffer (nthNewestSlot (appendAll h) (i : Int))) =
      retainedNewestFirst h := by
  have hcnt : (appendAll h).dataBufferCount.toNat = min h.length 1000 := by
    rw [appendAll_count]; omega
  apply List.ext_getElem
  · simp [hcnt, retainedNewestFirst_length]
  · intro n h1 h2
    simp only [List.getElem_map, List.getElem_range]
    have hn : n < min h.length 1000 := by
      simpa [hcnt] using h1
    have e1 := retainedNewestFirst_getD h n hn
    rw [list_getD_eq _ _ h2] at e1
    rw [appendAll_nthNewest h n hn, ← e1]

theorem filterMap_if_map {α β : Type} (l : List α) (f : α → β) (p : β → Prop)
    [DecidablePred p] :
    (l.filterMap fun x => if p (f x) then some (f x) else none) =
      (l.map f).filter fun b => decide (p b) := by
  induction l with
  | nil => rfl
  | cons a l ih =>
      simp only [List.filterMap_cons, List.map_cons, List.filter_cons]
      by_cases hp : p (f a)
      · simp [hp, ih]
      · simp [hp, ih]

/-- C2 (amended): for every history, the chart-rendering window scan
visits exactly the retained samples whose timestamp `ts` satisfies
`startTime ≤ ts ≤ now`, but in descending (newest-first) order — the
reverse of the retained append order — not ascending order. -/
theorem chart_window_exact_newest_first (h : List TempData) (startTime now : Int) :
    chartVisits (appendAll h) startTime now =
      (retainedNewestFirst h).filter fun d =>
        decide (startTime ≤ d.timestamp ∧ d.timestamp ≤ now) := by
  unfold chartVisits
  rw [filterMap_if_map (List.range (appendAll h).dataBufferCount.toNat)
    (fun (i : Nat) => (appendAll h).dataBuffer (nthNewestSlot (appendAll h) (i : Int)))
    (fun d => startTime ≤ d.timestamp ∧ d.timestamp ≤ now)]
  rw [map_nthNewest_eq]

/-- C2 (counterexample): with two retained samples at timestamps 1 and 2,
both inside the query window [0, 10], the chart scan visits them as
[2, 1] — newest first — and not in ascending time order [1, 2] as the
claim states. -/
theorem chart_window_not_ascending_counterexample :
    chartVisits (appendAll [⟨1, []⟩, ⟨2, []⟩]) 0 10 = [⟨2, []⟩, ⟨1, []⟩] ∧
    chartVisits (appendAll [⟨1, []⟩, ⟨2, []⟩]) 0 10 ≠ [⟨1, []⟩, ⟨2, []⟩] := by
  decide

theorem sensorTaskAppend_count (ch : ChannelState) (t : ℚ) (s : Int) :
    (sensorTaskAppend ch t s).dataCount =
      if ch.dataCount < 1000 then ch.dataCount + 1 else ch.dataCount := by
  unfold sensorTaskAppend MAX_DATA_POINTS
  split <;> rfl

theorem sensorTaskAppend_data (ch : ChannelState) (t : ℚ) (s : Int) :
    (sensorTaskAppend ch t s).data =
      Function.update ch.data ch.currentDataIndex ⟨t, s⟩ := by
  unfold sensorTaskAppend
  split <;> rfl

theorem sensorTaskAppend_index (ch : ChannelState) (t : ℚ) (s : Int) :
    (sensorTaskAppend ch t s).currentDataIndex =
      if ch.currentDataIndex + 1 ≥ 1000 then 0 else ch.currentDataIndex + 1 := by
  unfold sensorTaskAppend MAX_DATA_POINTS
  split <;> simp_all

theorem sensorTaskAppend_overflow (ch : ChannelState) (t : ℚ) (s : Int) :
    (sensorTaskAppend ch t s).dataOverflow =
      if ch.currentDataIndex + 1 ≥ 1000 then true else ch.dataOverflow := by
  unfold sensorTaskAppend MAX_DATA_POINTS
  split <;> simp_all

theorem channelAppendAll_append (l : List (ℚ × Int)) (p : ℚ × Int) :
    channelAppendAll (l ++ [p]) = sensorTaskAppend (channelAppendAll l) p.1 p.2 := by
  simp [channelAppendAll, List.foldl_append]

theorem channelAppendAll_index (l : List (ℚ × Int)) :
    (channelAppendAll l).currentDataIndex = (l.length : Int) % 1000 := by
  induction l using List.reverseRecOn with
  | nil => simp [channelAppendAll, emptyChannel]
  | append_singleton l p ih =>
      rw [channelAppendAll_append, sensorTaskAppend_index, ih]
      simp only [List.length_append, List.length_singleton]
      split <;> push_cast <;> omega

theorem channelAppendAll_count (l : List (ℚ × Int)) :
    (channelAppendAll l).dataCount = ((min l.length 1000 : Nat) : Int) := by
  induction l using List.reverseRecOn with
  | nil => simp [channelAppendAll, emptyChannel]
  | append_singleton l p ih =>
      rw [channelAppendAll_append, sensorTaskAppend_count, ih]
      simp only [List.length_append, List.length_singleton]
      split <;> push_cast <;> omega

theorem channelAppendAll_overflow (l : List (ℚ × Int)) :
    (channelAppendAll l).dataOverflow = decide (1000 ≤ l.length) := by
  induction l using List.reverseRecOn with
  | nil => simp [channelAppendAll, emptyChannel]
  | append_singleton l p ih =>
      rw [channelAppendAll_append, sensorTaskAppend_overflow, ih,
        channelAppendAll_index]
      simp only [List.length_append, List.length_singleton]
      split
      · have : 1000 ≤ l.length + 1 := by omega
        simp [this]
      · have h1 : (1000 ≤ l.length) ↔ (1000 ≤ l.length + 1) := by omega
        simp only [decide_eq_decide.mpr h1]

theorem channelAppendAll_latest (l : List (ℚ × Int)) (hne : l ≠ []) :
    channelLatest (channelAppendAll l) =
      ⟨(l.getLastD (0, 0)).1, (l.getLastD (0, 0)).2⟩ := by
  rcases List.eq_nil_or_concat l with rfl | ⟨l', p, rfl⟩
  · exact absurd rfl hne
  · rw [List.concat_eq_append, channelAppendAll_append]
    have hidx := channelAppendAll_index l'
    have h1 : 0 ≤ (l'.length : Int) % 1000 := by omega
    have h2 : (l'.length : Int) % 1000 < 1000 := by omega
    unfold channelLatest
    rw [sensorTaskAppend_index, sensorTaskAppend_data]
    have hslot : ((if (channelAppendAll l').currentDataIndex + 1 ≥ 1000 then 0
        else (channelAppendAll l').currentDataIndex + 1) - 1 + MAX_DATA_POINTS) %
          MAX_DATA_POINTS = (channelAppendAll l').currentDataIndex := by
      rw [hidx]
      unfold MAX_DATA_POINTS
      split <;> omega
    rw [hslot, Function.update_same]
    simp

/-- C1: for every sequence of N accepted appends into a per-channel ring
store of capacity C = 1000 (`MAX_DATA_POINTS`), after the N-th append
`dataCount = min N C`, `dataOverflow` is `true` exactly once `N ≥ C`, and
the latest entry — the slot at `currentDataIndex - 1` modulo C — holds the
N-th appended reading and timestamp. -/
theorem ring_append_count_overflow_latest (samples : List (ℚ × Int))
    (hne : samples ≠ []) :
    (channelAppendAll samples).dataCount = ((min samples.length 1000 : Nat) : Int) ∧
    ((channelAppendAll samples).dataOverflow = true ↔ 1000 ≤ samples.length) ∧
    channelLatest (channelAppendAll samples) =
      ⟨(samples.getLastD (0, 0)).1, (samples.getLastD (0, 0)).2⟩ := by
  refine ⟨channelAppendAll_count samples, ?_, channelAppendAll_latest samples hne⟩
  rw [channelAppendAll_overflow]
  simp

/-- C1 (witness): three concrete appends into an empty channel ring leave
`dataCount = 3`, no overflow, and the third sample as the latest entry. -/
theorem ring_append_count_overflow_latest_witness :
    (channelAppendAll [(25, 100), (26, 200), (27, 300)]).dataCount = ((min 3 1000 : Nat) : Int) ∧
    ((channelAppendAll [(25, 100), (26, 200), (27, 300)]).dataOverflow = true ↔
      1000 ≤ ([(25, 100), (26, 200), (27, 300)] : List (ℚ × Int)).length) ∧
    channelLatest (channelAppendAll [(25, 100), (26, 200), (27, 300)]) = ⟨27, 300⟩ :=
  ring_append_count_overflow_latest [(25, 100), (26, 200), (27, 300)] (by decide)

theorem loadStep_blank (st : DataBufferState) (l : LogLine)
    (hl : lineFields l = none) : loadStep st l = st := by
  unfold loadStep
  rw [hl]
  split <;> rfl

theorem loadFold_spec (log : List LogLine) : ∀ (st : DataBufferState) (k : Nat),
    st.dataBufferCount = (k : Int) → st.dataBufferIndex = (k : Int) % 1000 →
    k ≤ 1000 →
    ((log.foldl loadStep st).dataBufferCount =
        (k : Int) + (((log.filterMap lineFields).take (1000 - k)).length : Int)) ∧
    ((log.foldl loadStep st).dataBufferIndex =
        ((k : Int) + (((log.filterMap lineFields).take (1000 - k)).length : Int)) % 1000) ∧
    (∀ j : Nat, j < k →
      (log.foldl loadStep st).dataBuffer (j : Int) = st.dataBuffer (j : Int)) ∧
    (∀ j : Nat, k ≤ j → j < k + ((log.filterMap lineFields).take (1000 - k)).length →
      (log.foldl loadStep st).dataBuffer (j : Int) =
        parseLinePair (((log.filterMap lineFields).take (1000 - k)).getD (j - k)
          (.garbage, []))) := by
  induction log with
  | nil =>
      intro st k hcnt hidx hk
      refine ⟨by simpa using hcnt, by simpa using hidx, fun j _ => rfl, fun j h1 h2 => ?_⟩
      simp at h2
      omega
  | cons l rest ih =>
      intro st k hcnt hidx hk
      cases hl : lineFields l with
      | none =>
          rw [List.foldl_cons, loadStep_blank st l hl,
            List.filterMap_cons_none hl]
          exact ih st k hcnt hidx hk
      | some p =>
          rw [List.foldl_cons, List.filterMap_cons_some hl]
          by_cases hkc : k < 1000
          · -- the line is inserted at slot k
            have hC : st.dataBufferCount < DATA_BUFFER_SIZE := by
              rw [hcnt]; unfold DATA_BUFFER_SIZE; omega
            have hkmod : (k : Int) % 1000 = (k : Int) := by omega
            have hstep : loadStep st l =
                { dataBuffer := Function.update st.dataBuffer (k : Int) (parseLinePair p)
                  dataBufferIndex := ((k : Nat) + 1 : Nat) % 1000
                  dataBufferCount := ((k : Nat) + 1 : Nat) } := by
              unfold loadStep
              rw [if_pos hC, hl]
              unfold DATA_BUFFER_SIZE
              rw [hidx, hkmod, hcnt]
              have : ((k : Int) + 1) % 1000 = (((k + 1 : Nat) : Int)) % 1000 := by
                push_cast; ring_nf
              rw [this]
              congr 1
            rw [hstep]
            have htake : (1000 - k) = (1000 - (k + 1)) + 1 := by omega
            rw [htake, List.take_succ_cons]
            obtain ⟨ih1, ih2, ih3, ih4⟩ := ih
              { dataBuffer := Function.update st.dataBuffer (k : Int) (parseLinePair p)
                dataBufferIndex := ((k : Nat) + 1 : Nat) % 1000
                dataBufferCount := ((k : Nat) + 1 : Nat) }
              (k + 1) (by push_cast; ring) (by push_cast; omega) (by omega)
            refine ⟨?_, ?_, ?_, ?_⟩
            · rw [ih1]; simp only [List.length_cons]; push_cast; ring
            · rw [ih2]; simp only [List.length_cons]; congr 1; push_cast; ring
            · intro j hj
              rw [ih3 j (by omega)]
              simp only [Function.update_apply]
              rw [if_neg (by
                intro hje
                have : j = k := by exact_mod_cast hje
                omega)]
            · intro j hj1 hj2
              rcases Nat.eq_or_lt_of_le hj1 with hkj | hkj
              · rw [ih3 j (by omega)]
                simp only [Function.update_apply]
                rw [if_pos (by exact_mod_cast hkj.symm)]
                rw [show j - k = 0 by omega, List.getD_cons_zero]
              · rw [ih4 j (by omega)
                  (by simp only [List.length_cons] at hj2; omega)]
                rw [show j - k = (j - (k + 1)) + 1 by omega, List.getD_cons_succ]
          · -- the buffer is already full: the loop body never runs again
            have hk1000 : k = 1000 := by omega
            have hC : ¬ st.dataBufferCount < DATA_BUFFER_SIZE := by
              rw [hcnt, hk1000]; decide
            have hstep : loadStep st l = st := by
              unfold loadStep
              rw [if_neg hC]
            rw [hstep]
            have htake0 : (1000 - k) = 0 := by omega
            rw [htake0, List.take_zero]
            obtain ⟨ih1, ih2, ih3, ih4⟩ := ih st k hcnt hidx hk
            simp only [htake0, List.take_zero] at ih1 ih2 ih4
            exact ⟨ih1, ih2, ih3, ih4⟩

theorem loadData_spec (st0 : DataBufferState) (log : List LogLine) :
    (loadData st0 log).dataBufferCount =
      (((log.filterMap lineFields).take 1000).length : Int) ∧
    (loadData st0 log).dataBufferIndex =
      (((log.filterMap lineFields).take 1000).length : Int) % 1000 ∧
    ∀ j : Nat, j < ((log.filterMap lineFields).take 1000).length →
      (loadData st0 log).dataBuffer (j : Int) =
        parseLinePair (((log.filterMap lineFields).take 1000).getD j (.garbage, [])) := by
  unfold loadData
  obtain ⟨h1, h2, _, h4⟩ := loadFold_spec log
    { st0 with dataBufferCount := 0, dataBufferIndex := 0 } 0 (by simp) (by simp)
    (by omega)
  simp only [Nat.sub_zero] at h1 h2 h4
  refine ⟨by simpa using h1, by simpa using h2, fun j hj => ?_⟩
  have := h4 j (Nat.zero_le j) (by omega)
  simpa using this

theorem retainedList_loadData (st0 : DataBufferState) (log : List LogLine) :
    retainedList (loadData st0 log) =
      ((log.filterMap lineFields).take 1000).map parseLinePair := by
  obtain ⟨h1, h2, h3⟩ := loadData_spec st0 log
  have hlen : ((log.filterMap lineFields).take 1000).length ≤ 1000 := by
    simp [List.length_take]
  apply List.ext_getElem
  · simp [retainedList, h1]
    omega
  · intro j hj1 hj2
    simp only [retainedList, List.getElem_map, List.getElem_range] at hj1 ⊢
    simp only [List.length_map] at hj2
    have hj : j < ((log.filterMap lineFields).take 1000).length := hj2
    have hslot :
        ((loadData st0 log).dataBufferIndex - (loadData st0 log).dataBufferCount +
          (j : Int) + DATA_BUFFER_SIZE) % DATA_BUFFER_SIZE = (j : Int) := by
      rw [h1, h2]
      unfold DATA_BUFFER_SIZE
      omega
    rw [hslot, h3 j hj]
    rw [list_getD_eq _ _ hj]

theorem latestEntry_appendAll (h : List TempData) (hne : h ≠ []) :
    latestEntry (appendAll h) = h.getLastD ⟨0, []⟩ := by
  have hpos : 0 < h.length := List.length_pos.mpr hne
  have h0 : (0 : Nat) < min h.length 1000 := by omega
  have := appendAll_nthNewest h 0 h0
  rw [Nat.cast_zero] at this
  unfold latestEntry
  rw [this]
  rw [List.getLastD_eq_getLast?, List.getLast?_eq_getElem?]
  simp [List.getD]

theorem runAcquisitions_eq (n : Nat) (h : List TempData) :
    runAcquisitions n h = (appendAll h, h.map (serializeSample n)) := by
  induction h using List.reverseRecOn with
  | nil => rfl
  | append_singleton l x ih =>
      unfold runAcquisitions at ih ⊢
      rw [List.foldl_append, List.foldl_cons, List.foldl_nil, ih]
      unfold acquireAndSave
      rw [← appendAll_append]
      have hlatest : latestEntry (appendAll (l ++ [x])) = x := by
        rw [latestEntry_appendAll _ (by simp)]
        simp
      unfold saveDataLine serializeSample
      rw [hlatest]
      simp

theorem parse_serialize (n : Nat) (hn : n ≤ 10) (s : TempData) :
    parseLinePair (.stamp s.timestamp,
        (s.temperatures.take n).map fun t => .num (printFloatVal 2 t)) =
      roundSample n s := by
  unfold parseLinePair roundSample parseTimeField
  have hlen : ((s.temperatures.take n).map
      fun t => CsvField.num (printFloatVal 2 t)).length ≤ 10 := by
    simp [List.length_take]
    omega
  rw [List.take_of_length_le hlen, List.map_map]
  rfl

theorem roundtrip_general (n : Nat) (hn : n ≤ 10) (h : List TempData) :
    retainedList (loadData emptyDataBuffer (runAcquisitions n h).2) =
      (h.take 1000).map (roundSample n) := by
  rw [runAcquisitions_eq, retainedList_loadData]
  rw [List.filterMap_map]
  have hcomp : (lineFields ∘ serializeSample n) = some ∘ fun s =>
      (TimeField.stamp s.timestamp,
        (s.temperatures.take n).map fun t => CsvField.num (printFloatVal 2 t)) := by
    funext s
    rfl
  rw [hcomp]
  rw [List.filterMap_eq_map]
  rw [← List.map_take, List.map_map]
  congr 1
  funext s
  exact parse_serialize n hn s

/-- C3 (amended): writing N samples through the ring store into the CSV
log and then replaying the log reproduces the first min(N, 1000) written
samples in order, with timestamps exact but each reading replaced by its
2-decimal rounding — the `print(float)` default `saveData` uses.  The
written sequence is reproduced exactly only when N ≤ 1000 and every
reading is already a multiple of 0.01. -/
theorem log_roundtrip_rounded_prefix (h : List TempData) (n : Nat) (hn : n ≤ 10) :
    retainedList (loadData emptyDataBuffer (runAcquisitions n h).2) =
      (h.take 1000).map (roundSample n) :=
  roundtrip_general n hn h

/-- C3 (witness): one sample whose reading 1/2 = 0.50 is 2-decimal exact
round-trips to its rounded form. -/
theorem log_roundtrip_rounded_prefix_witness :
    retainedList (loadData emptyDataBuffer (runAcquisitions 1 [⟨0, [1/2]⟩]).2) =
      (([⟨0, [1/2]⟩] : List TempData).take 1000).map (roundSample 1) :=
  log_roundtrip_rounded_prefix [⟨0, [1/2]⟩] 1 (by decide)

/-- C3 (counterexample): a sample with reading 1/16 = 0.0625 °C (a value
the 12-bit DS18B20 actually produces) replays as 0.06 = 3/50, not 1/16:
`saveData` prints readings with 2 decimal places, so the write/replay
round trip is not field-exact as claimed. -/
theorem log_roundtrip_precision_counterexample :
    retainedList (loadData emptyDataBuffer (runAcquisitions 1 [⟨0, [1/16]⟩]).2) =
      [⟨0, [3/50]⟩] ∧
    ([⟨0, [3/50]⟩] : List TempData) ≠ [⟨0, [1/16]⟩] := by
  constructor
  · rw [roundtrip_general 1 (by omega) [⟨0, [1/16]⟩]]
    simp only [List.take, List.map, roundSample]
    norm_num [printFloatVal]
  · simp only [ne_eq, List.cons.injEq, TempData.mk.injEq, and_true, true_and]
    intro hcon
    have : (3 : ℚ)/50 = 1/16 := by
      simpa using hcon
    norm_num at this

/-- C4 (amended): `loadData` replays the persistence log oldest first,
inserting the non-blank lines in stored order and stopping as soon as
`DATA_BUFFER_SIZE` = 1000 records are loaded — so when the log holds more
than 1000 records it is the oldest 1000 that end up retained (the tail of
the file is ignored), not the newest 1000.  Moreover `setup()` never
calls `loadData`, so at startup the ring store is not bootstrap-populated
at all. -/
theorem loadData_oldest_prefix_and_unused :
    (∀ log : List LogLine,
      retainedList (loadData emptyDataBuffer log) =
        ((log.filterMap lineFields).take 1000).map parseLinePair) ∧
    CoreCall.loadDataCall ∉ setupCalls :=
  ⟨fun log => retainedList_loadData emptyDataBuffer log, by decide⟩

/-- C4 (counterexample): replaying a log of 1001 records stamped 1..1001
retains the oldest 1000: the count reaches 1000, the latest retained
entry is the record stamped 1000 (not 1001, as "newest 1000 kept" would
give), and the record stamped 1 is still in the buffer at slot 0. -/
theorem loadData_newest_kept_counterexample :
    (loadData emptyDataBuffer ((List.range 1001).map fun (t : Nat) =>
        LogLine.line (.stamp ((t : Int) + 1)) [])).dataBufferCount = 1000 ∧
    latestEntry (loadData emptyDataBuffer ((List.range 1001).map fun (t : Nat) =>
        LogLine.line (.stamp ((t : Int) + 1)) [])) = ⟨1000, []⟩ ∧
    (loadData emptyDataBuffer ((List.range 1001).map fun (t : Nat) =>
        LogLine.line (.stamp ((t : Int) + 1)) [])).dataBuffer 0 = ⟨1, []⟩ ∧
    (⟨1000, []⟩ : TempData) ≠ ⟨1001, []⟩ := by
  have hcomp : (lineFields ∘ fun (t : Nat) => LogLine.line (.stamp ((t : Int) + 1)) []) =
      some ∘ fun (t : Nat) => ((TimeField.stamp ((t : Int) + 1)), ([] : List CsvField)) := by
    funext t
    rfl
  have hfm : (((List.range 1001).map fun (t : Nat) =>
      LogLine.line (.stamp ((t : Int) + 1)) []).filterMap lineFields).take 1000 =
      (List.range 1000).map fun (t : Nat) =>
        ((TimeField.stamp ((t : Int) + 1)), ([] : List CsvField)) := by
    rw [List.filterMap_map, hcomp, List.filterMap_eq_map, ← List.map_take,
      List.take_range]
    norm_num
  obtain ⟨h1, h2, h3⟩ := loadData_spec emptyDataBuffer
    ((List.range 1001).map fun (t : Nat) => LogLine.line (.stamp ((t : Int) + 1)) [])
  rw [hfm] at h1 h2 h3
  simp only [List.length_map, List.length_range] at h1 h2 h3
  have hb : ∀ j : Nat, j < 1000 → j < (((List.range 1000).map fun (t : Nat) =>
      ((TimeField.stamp ((t : Int) + 1)), ([] : List CsvField))).length) := by
    intro j hj
    simpa using hj
  refine ⟨by rw [h1]; norm_num, ?_, ?_, by decide⟩
  · have hle : ∀ st : DataBufferState, latestEntry st =
        st.dataBuffer ((st.dataBufferIndex - 0 - 1 + 1000) % 1000) :=
      fun st => rfl
    have hslot : ((((1000 : Nat) : Int)) % 1000 - 0 - 1 + 1000) % 1000 =
        ((999 : Nat) : Int) := by
      norm_num
    simp only [hle, h2, hslot]
    simp only [h3 999 (by norm_num), list_getD_eq _ _ (hb 999 (by norm_num)),
      List.getElem_map, List.getElem_range, parseLinePair, parseTimeField,
      List.take_nil, List.map_nil, TempData.mk.injEq]
    norm_num
  · have h0 : (0 : Int) = ((0 : Nat) : Int) := rfl
    simp only [h0]
    simp only [h3 0 (by norm_num), list_getD_eq _ _ (hb 0 (by norm_num)),
      List.getElem_map, List.getElem_range, parseLinePair, parseTimeField,
      List.take_nil, List.map_nil, TempData.mk.injEq]
    norm_num

/-- C9 (amended): the replay loop of `loadData` skips only blank lines,
and silently — no skipped-record count is maintained or reported; every
non-blank record, however corrupt, is inserted into the buffer: a
malformed temperature token is read as 0.0 by `toFloat` and a malformed
timestamp becomes the out-of-range `mktime` result. -/
theorem replay_inserts_corrupt_records (st : DataBufferState) (tf : TimeField)
    (fs : List CsvField) (hcnt : st.dataBufferCount < 1000) :
    (loadStep st (.line tf fs)).dataBufferCount = st.dataBufferCount + 1 ∧
    (loadStep st (.line tf fs)).dataBuffer st.dataBufferIndex =
      parseLinePair (tf, fs) ∧
    loadStep st .blank = st ∧
    csvFieldValue .garbage = 0 ∧
    parseTimeField .garbage = mktimeOutOfRange := by
  have hC : st.dataBufferCount < DATA_BUFFER_SIZE := by
    unfold DATA_BUFFER_SIZE; omega
  refine ⟨?_, ?_, ?_, rfl, rfl⟩
  · unfold loadStep
    rw [if_pos hC]
    rfl
  · unfold loadStep
    rw [if_pos hC]
    simp [lineFields, Function.update_same]
  · unfold loadStep
    split <;> rfl

/-- C9 (witness): one corrupt line appended to the empty buffer is
inserted, with the claimed garbage-token behaviours. -/
theorem replay_inserts_corrupt_records_witness :
    (loadStep emptyDataBuffer (.line .garbage [.garbage])).dataBufferCount =
      emptyDataBuffer.dataBufferCount + 1 ∧
    (loadStep emptyDataBuffer (.line .garbage [.garbage])).dataBuffer
      emptyDataBuffer.dataBufferIndex = parseLinePair (.garbage, [.garbage]) ∧
    loadStep emptyDataBuffer .blank = emptyDataBuffer ∧
    csvFieldValue .garbage = 0 ∧
    parseTimeField .garbage = mktimeOutOfRange :=
  replay_inserts_corrupt_records emptyDataBuffer .garbage [.garbage] (by decide)

/-- C9 (counterexample): a log holding one corrupt record — a valid
timestamp but a malformed temperature token — is not skipped on replay:
`loadData` loads 1 record (the claim requires 0, with a skipped count of
1) and stores the malformed reading as the numeric value 0.0. -/
theorem replay_corrupt_not_skipped_counterexample :
    (loadData emptyDataBuffer [.line (.stamp 100) [.garbage]]).dataBufferCount = 1 ∧
    retainedList (loadData emptyDataBuffer [.line (.stamp 100) [.garbage]]) =
      [⟨100, [0]⟩] := by
  decide

theorem foldl_fun_congr {α β : Type} (l : List α) (f g : β → α → β) (init : β)
    (h : ∀ acc x, x ∈ l → f acc x = g acc x) :
    l.foldl f init = l.foldl g init := by
  induction l generalizing init with
  | nil => rfl
  | cons a l ih =>
      rw [List.foldl_cons, List.foldl_cons, h init a (by simp)]
      exact ih _ fun acc x hx => h acc x (by simp [hx])

theorem foldl_filterMap {α β γ : Type} (l : List α) (g : α → Option γ)
    (f : β → γ → β) (init : β) :
    (l.filterMap g).foldl f init =
      l.foldl (fun acc x =>
        match g x with
        | some c => f acc c
        | none => acc) init := by
  induction l generalizing init with
  | nil => rfl
  | cons a l ih =>
      cases hg : g a with
      | none => simp [List.filterMap_cons, hg, ih]
      | some c => simp [List.filterMap_cons, hg, ih]

theorem foldl_flatMap {α β γ : Type} (l : List α) (g : α → List γ)
    (f : β → γ → β) (init : β) :
    (l.flatMap g).foldl f init =
      l.foldl (fun acc x => (g x).foldl f acc) init := by
  induction l generalizing init with
  | nil => rfl
  | cons a l ih => simp [List.flatMap_cons, List.foldl_append, ih]

theorem foldl_filter {α β : Type} (l : List α) (p : α → Bool)
    (f : β → α → β) (init : β) :
    (l.filter p).foldl f init =
      l.foldl (fun acc x => if p x then f acc x else acc) init := by
  induction l generalizing init with
  | nil => rfl
  | cons a l ih =>
      by_cases hp : p a <;> simp [List.filter_cons, hp, ih]

/-- C6: a channel marked disconnected (the `DEVICE_DISCONNECTED_C`
sentinel) is never represented as a numeric value by the chart's
axis-scaling min/max scan — the scan's result is a fold over exactly the
connected in-window readings, from which every sentinel is filtered out —
nor by the table's cell rendering, which produces the `"---"` marker for
a disconnected reading and numeric cells only from connected ones. -/
theorem disconnected_never_numeric :
    (∀ (st : DataBufferState) (t0 t1 : Int) (n : Nat),
      chartMinMax st t0 t1 n =
        (connectedReadings st t0 t1 n).foldl minMaxStep (1000, -1000)) ∧
    (∀ (st : DataBufferState) (t0 t1 : Int) (n : Nat) (q : ℚ),
      q ∈ connectedReadings st t0 t1 n → q ≠ DEVICE_DISCONNECTED_C) ∧
    renderTemp DEVICE_DISCONNECTED_C = Cell.dashes ∧
    (∀ (t : ℚ) (q : ℚ), renderTemp t = Cell.num q → t ≠ DEVICE_DISCONNECTED_C) := by
  refine ⟨?_, ?_, ?_, ?_⟩
  · intro st t0 t1 n
    unfold connectedReadings chartVisits chartMinMax
    rw [foldl_flatMap, foldl_filterMap]
    apply foldl_fun_congr
    intro mm i _
    by_cases hw : t0 ≤ (st.dataBuffer (nthNewestSlot st (i : Int))).timestamp ∧
        (st.dataBuffer (nthNewestSlot st (i : Int))).timestamp ≤ t1
    · simp only [hw, if_true, and_self]
      rw [foldl_filter]
      apply foldl_fun_congr
      intro mm' t _
      by_cases hd : t ≠ DEVICE_DISCONNECTED_C <;> simp [hd]
    · simp [hw]
  · intro st t0 t1 n q hq
    unfold connectedReadings at hq
    rw [List.mem_flatMap] at hq
    obtain ⟨d, _, hq⟩ := hq
    rw [List.mem_filter] at hq
    simpa using hq.2
  · unfold renderTemp
    simp
  · intro t q hres
    unfold renderTemp at hres
    by_cases hd : t ≠ DEVICE_DISCONNECTED_C
    · exact hd
    · rw [if_neg hd] at hres
      exact absurd hres (by simp)

/-- C6 (witness): with one retained in-window sample reading 25 °C, the
membership component applies at the concrete reading 25. -/
theorem disconnected_never_numeric_witness :
    (25 : ℚ) ≠ DEVICE_DISCONNECTED_C :=
  disconnected_never_numeric.2.1 (appendAll [⟨0, [25]⟩]) 0 10 1 25 (by decide)

/-- C7 (counterexample): the sampling interval is changed from 60 s to
10 s at t = 5 s, while the scheduler is idle in the `delay` that began at
t = 0 with duration 60.  The next acquisition still fires at t = 60 —
after the old interval — not after the new 10 s interval as the claim
states. -/
theorem interval_change_idle_counterexample :
    sensorTaskFireTimes (stepSignal 5 60 10) 1 = 60 ∧ (60 : Int) ≠ 10 := by
  decide

/-- C7 (amended): the interval is read when each `delay` begins, i.e.
immediately after each acquisition — not re-read while waiting.  A change
from `a` to `b` made at time `c` during the first idle period
(`0 < c ≤ a`) therefore leaves the next cycle firing after the old
interval `a`, and only the cycle after that fires after the new interval
`b`. -/
theorem interval_change_effective_next_idle (a b c : Int) (h1 : 0 < c)
    (h2 : c ≤ a) :
    sensorTaskFireTimes (stepSignal c a b) 1 = a ∧
    sensorTaskFireTimes (stepSignal c a b) 2 = a + b := by
  have e0 : sensorTaskFireTimes (stepSignal c a b) 0 = 0 := rfl
  have e1 : sensorTaskFireTimes (stepSignal c a b) 1 = a := by
    show sensorTaskFireTimes (stepSignal c a b) 0 +
        stepSignal c a b (sensorTaskFireTimes (stepSignal c a b) 0) = a
    rw [e0]
    unfold stepSignal
    rw [if_pos h1]
    ring
  refine ⟨e1, ?_⟩
  show sensorTaskFireTimes (stepSignal c a b) 1 +
      stepSignal c a b (sensorTaskFireTimes (stepSignal c a b) 1) = a + b
  rw [e1]
  unfold stepSignal
  rw [if_neg (by omega)]

/-- C7 (witness): the amended statement at the scenario's concrete values
(change 60 → 10 at t = 5). -/
theorem interval_change_effective_next_idle_witness :
    sensorTaskFireTimes (stepSignal 5 60 10) 1 = 60 ∧
    sensorTaskFireTimes (stepSignal 5 60 10) 2 = 60 + 10 :=
  interval_change_effective_next_idle 60 10 5 (by decide) (by decide)

/-- C5: `load_settings` of the Fixed variant opens `/settings.json` and
then ignores its content, assigning the hard-coded defaults — so a load
after `save_settings(s)` returns the defaults, not `s` (here
`s.sampleInterval = 120` comes back as 60); and a load with the file
absent assigns nothing at all, leaving the zero-initialised globals in
place (`sampleInterval = 0`) rather than the all-default value the claim
requires. -/
theorem fixed_load_settings_ignores_saved :
    load_settings { defaultFixedSettings with sampleInterval := 120 }
        (save_settings none { defaultFixedSettings with sampleInterval := 120 }) =
      defaultFixedSettings ∧
    defaultFixedSettings.sampleInterval = 60 ∧
    ({ defaultFixedSettings with sampleInterval := 120 } : FixedSettings).sampleInterval
      = 120 ∧
    load_settings zeroFixedSettings none = zeroFixedSettings ∧
    zeroFixedSettings.sampleInterval = 0 :=
  ⟨rfl, rfl, rfl, rfl, rfl⟩

theorem nthNewest_eq_getD (h : List TempData) (i : Nat)
    (hi : i < min h.length 1000) :
    (appendAll h).dataBuffer (nthNewestSlot (appendAll h) (i : Int)) =
      (retainedNewestFirst h).getD i ⟨0, []⟩ := by
  rw [appendAll_nthNewest h i hi, retainedNewestFirst_getD h i hi]

theorem range_filterMap_getElem {α : Type} (l : List α) (o : Nat) (k : Nat) :
    ((List.range k).filterMap fun (r : Nat) => l[o + r]?) = (l.drop o).take k := by
  induction k with
  | zero => simp
  | succ k ih =>
      rw [List.range_succ, List.filterMap_append, ih, List.take_succ]
      congr 1
      simp only [List.filterMap_cons, List.filterMap_nil, List.getElem?_drop]
      cases l[o + k]? <;> rfl

/-- C8: the table page shows, of the retained samples listed newest
first, the slice that skips the first `offset` and takes the next 10
(the `limit` in the code); `handleTableScroll` keeps the offset inside
`[0, maxTableScroll]` where `maxTableScroll = max 0 (count - 10)`; and
the scroll-up / scroll-down indicators are drawn exactly when
`offset > 0` / `offset < maxTableScroll` respectively. -/
theorem table_page_spec (h : List TempData) (offset : Int) (hoff : 0 ≤ offset) :
    tableVisibleRows (appendAll h) offset =
      ((retainedNewestFirst h).drop offset.toNat).take 10 ∧
    (∀ direction count : Int,
      0 ≤ handleTableScroll offset direction (maxTableScrollOf count) ∧
      handleTableScroll offset direction (maxTableScrollOf count) ≤
        maxTableScrollOf count ∧
      maxTableScrollOf count = max 0 (count - 10)) ∧
    (scrollUpShown offset = true ↔ 0 < offset) ∧
    (∀ maxScroll : Int, scrollDownShown offset maxScroll = true ↔ offset < maxScroll) := by
  refine ⟨?_, ?_, ?_, ?_⟩
  · have hcnt := appendAll_count h
    have hlen := retainedNewestFirst_length h
    unfold tableVisibleRows
    have hF : (fun (row : Nat) =>
        if offset + (row : Int) < (appendAll h).dataBufferCount then
          some ((appendAll h).dataBuffer
            (nthNewestSlot (appendAll h) (offset + (row : Int))))
        else none) =
        fun (row : Nat) => (retainedNewestFirst h)[offset.toNat + row]? := by
      funext row
      by_cases hc : offset + (row : Int) < (appendAll h).dataBufferCount
      · rw [if_pos hc]
        have hn : offset.toNat + row < min h.length 1000 := by
          rw [hcnt] at hc
          omega
        have hcast : offset + (row : Int) = ((offset.toNat + row : Nat) : Int) := by
          omega
        rw [hcast, nthNewest_eq_getD h _ hn,
          list_getD_eq _ _ (by omega : offset.toNat + row < (retainedNewestFirst h).length),
          List.getElem?_eq_getElem]
      · rw [if_neg hc]
        rw [eq_comm, List.getElem?_eq_none_iff]
        rw [hcnt] at hc
        omega
    rw [hF, range_filterMap_getElem]
  · intro direction count
    unfold handleTableScroll maxTableScrollOf
    refine ⟨?_, ?_, rfl⟩ <;> split_ifs <;> omega
  · unfold scrollUpShown
    simp
  · intro maxScroll
    unfold scrollDownShown
    simp

/-- C8 (witness): the page slice at offset 1 over a two-sample history. -/
theorem table_page_spec_witness :
    tableVisibleRows (appendAll [⟨5, []⟩, ⟨6, []⟩]) 1 =
      ((retainedNewestFirst [⟨5, []⟩, ⟨6, []⟩]).drop (1 : Int).toNat).take 10 :=
  (table_page_spec [⟨5, []⟩, ⟨6, []⟩] 1 (by decide)).1

theorem loadStep_inv (st : DataBufferState) (l : LogLine) (hinv : RingInv st) :
    RingInv (loadStep st l) := by
  obtain ⟨h1, h2, h3, h4⟩ := hinv
  unfold RingInv DATA_BUFFER_SIZE at *
  unfold loadStep DATA_BUFFER_SIZE
  split
  · split
    · exact ⟨h1, h2, h3, h4⟩
    · dsimp only
      refine ⟨by omega, by omega, by omega, by omega⟩
  · exact ⟨h1, h2, h3, h4⟩

/-- C10: every mutation of the ring buffers keeps the write cursor in
`[0, C)` and the count in `[0, C]` with C = 1000: the original sketch's
`readSensors` append, the Fixed variant's `sensorTask` append, the
bootstrap `loadData` (unconditionally, since it resets both fields first),
and the clear-data action; consequently every index computation of the
form `(cursor - k + C) % C` with `0 ≤ k ≤ C` lands inside the buffer
bounds. -/
theorem ring_invariants_preserved :
    (∀ (st : DataBufferState) (d : TempData),
      RingInv st → RingInv (readSensorsStore st d)) ∧
    (∀ (ch : ChannelState) (t : ℚ) (ts : Int),
      ChannelInv ch → ChannelInv (sensorTaskAppend ch t ts)) ∧
    (∀ (st : DataBufferState) (log : List LogLine), RingInv (loadData st log)) ∧
    (∀ ch : ChannelState, ChannelInv (clearChannelData ch)) ∧
    (∀ (st : DataBufferState) (k : Int), RingInv st → 0 ≤ k → k ≤ DATA_BUFFER_SIZE →
      0 ≤ (st.dataBufferIndex - k + DATA_BUFFER_SIZE) % DATA_BUFFER_SIZE ∧
      (st.dataBufferIndex - k + DATA_BUFFER_SIZE) % DATA_BUFFER_SIZE <
        DATA_BUFFER_SIZE) := by
  refine ⟨?_, ?_, ?_, ?_, ?_⟩
  · intro st d hinv
    obtain ⟨h1, h2, h3, h4⟩ := hinv
    unfold RingInv readSensorsStore DATA_BUFFER_SIZE at *
    dsimp only
    refine ⟨?_, ?_, ?_, ?_⟩ <;> omega
  · intro ch t ts hinv
    obtain ⟨h1, h2, h3, h4⟩ := hinv
    unfold ChannelInv MAX_DATA_POINTS at *
    refine ⟨?_, ?_, ?_, ?_⟩ <;>
      simp only [sensorTaskAppend_index, sensorTaskAppend_count] <;>
      split_ifs <;> omega
  · intro st log
    unfold loadData
    have hstart : RingInv { st with dataBufferCount := 0, dataBufferIndex := 0 } := by
      unfold RingInv DATA_BUFFER_SIZE
      dsimp only
      refine ⟨by omega, by omega, by omega, by omega⟩
    generalize { st with dataBufferCount := 0, dataBufferIndex := 0 } = st0 at hstart
    induction log generalizing st0 with
    | nil => exact hstart
    | cons l rest ih => exact ih (loadStep st0 l) (loadStep_inv st0 l hstart)
  · intro ch
    unfold ChannelInv clearChannelData MAX_DATA_POINTS
    dsimp only
    refine ⟨by omega, by omega, by omega, by omega⟩
  · intro st k hinv hk1 hk2
    obtain ⟨h1, h2, h3, h4⟩ := hinv
    unfold DATA_BUFFER_SIZE at *
    omega

/-- C10 (witness): the append-preservation component applied at the boot
state and a concrete sample, and the index-bound component at k = 5. -/
theorem ring_invariants_preserved_witness :
    RingInv (readSensorsStore emptyDataBuffer ⟨0, [25]⟩) ∧
    (0 ≤ (emptyDataBuffer.dataBufferIndex - 5 + DATA_BUFFER_SIZE) % DATA_BUFFER_SIZE ∧
      (emptyDataBuffer.dataBufferIndex - 5 + DATA_BUFFER_SIZE) % DATA_BUFFER_SIZE <
        DATA_BUFFER_SIZE) :=
  ⟨ring_invariants_preserved.1 emptyDataBuffer ⟨0, [25]⟩
      ⟨by decide, by decide, by decide, by decide⟩,
    ring_invariants_preserved.2.2.2.2 emptyDataBuffer 5
      ⟨by decide, by decide, by decide, by decide⟩ (by decide) (by decide)⟩

theorem prefFind_put_eq (st : PrefStore) (k : PrefKey) (v : PrefVal) :
    prefFind (prefPut st k v) k = some v := by
  simp [prefPut, prefFind]

theorem prefFind_put_ne (st : PrefStore) (k k' : PrefKey) (v : PrefVal)
    (h : k ≠ k') : prefFind (prefPut st k' v) k = prefFind st k := by
  simp [prefPut, prefFind, h]

theorem putSensorNames_succ (st : PrefStore) (names : List String) (c : Nat) :
    putSensorNames st names (c + 1) =
      prefPut (putSensorNames st names c) (.sensorName (c : Int))
        (.ps (names.getD c "")) := by
  unfold putSensorNames
  rw [List.range_succ, List.foldl_append, List.foldl_cons, List.foldl_nil]

theorem prefFind_putNames_ne (st : PrefStore) (names : List String) (c : Nat)
    (k : PrefKey) (h : ∀ i : Int, k ≠ .sensorName i) :
    prefFind (putSensorNames st names c) k = prefFind st k := by
  induction c with
  | zero => rfl
  | succ c ih =>
      rw [putSensorNames_succ, prefFind_put_ne _ _ _ _ (h (c : Int)), ih]

theorem prefFind_putNames_eq (st : PrefStore) (names : List String) (c : Nat)
    (i : Nat) (hi : i < c) :
    prefFind (putSensorNames st names c) (.sensorName (i : Int)) =
      some (.ps (names.getD i "")) := by
  induction c with
  | zero => omega
  | succ c ih =>
      rw [putSensorNames_succ]
      rcases Nat.lt_succ_iff_lt_or_eq.mp hi with h | h
      · rw [prefFind_put_ne _ _ _ _ (by simp; omega), ih h]
      · subst h
        rw [prefFind_put_eq]

/-- The original sketch's `Preferences`-based settings do satisfy the
round trip the spec asks for: with a well-formed settings value
(`0 ≤ sensorCount ≤ 10`, a 10-slot names array), `loadSettings` after
`saveSettings(g)` reproduces `g` exactly. -/
theorem origSettings_roundtrip (g : OrigSettings) (hc1 : 0 ≤ g.sensorCount)
    (hc2 : g.sensorCount ≤ 10) (hlen : g.sensorNames.length = 10) :
    loadSettingsStore (saveSettingsStore [] g) g.sensorNames = g := by
  have hns : ∀ k : PrefKey, (∀ i : Int, k ≠ .sensorName i) →
      prefFind (saveSettingsStore [] g) k =
        prefFind (prefPut (prefPut (prefPut (prefPut (prefPut (prefPut
          (prefPut (prefPut (prefPut (prefPut [] .wifi_enabled (.pb g.wifiEnabled))
            .ssid (.ps g.ssid)) .password (.ps g.password))
            .sensor_count (.pi g.sensorCount))
          .sample_interval (.pi g.sampleInterval))
          .deep_sleep (.pb g.deepSleepEnabled))
          .touch_cal_min_x (.pi g.touchCalMinX))
          .touch_cal_min_y (.pi g.touchCalMinY))
          .touch_cal_max_x (.pi g.touchCalMaxX))
          .touch_cal_max_y (.pi g.touchCalMaxY)) k := by
    intro k hk
    unfold saveSettingsStore
    by_cases h1 : k = .touch_cal_max_y
    · subst h1; rw [prefFind_put_eq, prefFind_put_eq]
    by_cases h2 : k = .touch_cal_max_x
    · subst h2
      rw [prefFind_put_ne _ _ _ _ h1, prefFind_put_eq,
        prefFind_put_ne _ _ _ _ h1, prefFind_put_eq]
    by_cases h3 : k = .touch_cal_min_y
    · subst h3
      rw [prefFind_put_ne _ _ _ _ h1, prefFind_put_ne _ _ _ _ h2, prefFind_put_eq,
        prefFind_put_ne _ _ _ _ h1, prefFind_put_ne _ _ _ _ h2, prefFind_put_eq]
    by_cases h4 : k = .touch_cal_min_x
    · subst h4
      rw [prefFind_put_ne _ _ _ _ h1, prefFind_put_ne _ _ _ _ h2,
        prefFind_put_ne _ _ _ _ h3, prefFind_put_eq,
        prefFind_put_ne _ _ _ _ h1, prefFind_put_ne _ _ _ _ h2,
        prefFind_put_ne _ _ _ _ h3, prefFind_put_eq]
    by_cases h5 : k = .deep_sleep
    · subst h5
      rw [prefFind_put_ne _ _ _ _ h1, prefFind_put_ne _ _ _ _ h2,
        prefFind_put_ne _ _ _ _ h3, prefFind_put_ne _ _ _ _ h4, prefFind_put_eq,
        prefFind_put_ne _ _ _ _ h1, prefFind_put_ne _ _ _ _ h2,
        prefFind_put_ne _ _ _ _ h3, prefFind_put_ne _ _ _ _ h4, prefFind_put_eq]
    by_cases h6 : k = .sample_interval
    · subst h6
      rw [prefFind_put_ne _ _ _ _ h1, prefFind_put_ne _ _ _ _ h2,
        prefFind_put_ne _ _ _ _ h3, prefFind_put_ne _ _ _ _ h4,
        prefFind_put_ne _ _ _ _ h5, prefFind_put_eq,
        prefFind_put_ne _ _ _ _ h1, prefFind_put_ne _ _ _ _ h2,
        prefFind_put_ne _ _ _ _ h3, prefFind_put_ne _ _ _ _ h4,
        prefFind_put_ne _ _ _ _ h5, prefFind_put_eq]
    · rw [prefFind_put_ne _ _ _ _ h1, prefFind_put_ne _ _ _ _ h2,
        prefFind_put_ne _ _ _ _ h3, prefFind_put_ne _ _ _ _ h4,
        prefFind_put_ne _ _ _ _ h5, prefFind_put_ne _ _ _ _ h6,
        prefFind_putNames_ne _ _ _ _ hk,
        prefFind_put_ne _ _ _ _ h1, prefFind_put_ne _ _ _ _ h2,
        prefFind_put_ne _ _ _ _ h3, prefFind_put_ne _ _ _ _ h4,
        prefFind_put_ne _ _ _ _ h5, prefFind_put_ne _ _ _ _ h6]
  have hname : ∀ i : Nat, i < g.sensorCount.toNat →
      prefFind (saveSettingsStore [] g) (.sensorName (i : Int)) =
        some (.ps (g.sensorNames.getD i "")) := by
    intro i hi
    unfold saveSettingsStore
    rw [prefFind_put_ne _ _ _ _ (by simp), prefFind_put_ne _ _ _ _ (by simp),
      prefFind_put_ne _ _ _ _ (by simp), prefFind_put_ne _ _ _ _ (by simp),
      prefFind_put_ne _ _ _ _ (by simp), prefFind_put_ne _ _ _ _ (by simp),
      prefFind_putNames_eq _ _ _ _ hi]
  have hcount : prefGetInt (saveSettingsStore [] g) .sensor_count 0 = g.sensorCount := by
    unfold prefGetInt
    rw [hns _ (fun i => by simp)]
    rw [prefFind_put_ne _ _ _ _ (by simp), prefFind_put_ne _ _ _ _ (by simp),
      prefFind_put_ne _ _ _ _ (by simp), prefFind_put_ne _ _ _ _ (by simp),
      prefFind_put_ne _ _ _ _ (by simp), prefFind_put_ne _ _ _ _ (by simp),
      prefFind_put_eq]
  obtain ⟨wifi, ssid0, pwd, cnt, names0, intv, deep, tc1, tc2, tc3, tc4⟩ := g
  simp only at hc1 hc2 hlen hns hname hcount
  unfold loadSettingsStore
  simp only [hcount, OrigSettings.mk.injEq, true_and, and_true]
  refine ⟨?_, ?_, ?_, ?_, ?_, ?_, ?_, ?_, ?_, ?_⟩
  · unfold prefGetBool
    rw [hns _ (fun i => by simp)]
    rw [prefFind_put_ne _ _ _ _ (by simp), prefFind_put_ne _ _ _ _ (by simp),
      prefFind_put_ne _ _ _ _ (by simp), prefFind_put_ne _ _ _ _ (by simp),
      prefFind_put_ne _ _ _ _ (by simp), prefFind_put_ne _ _ _ _ (by simp),
      prefFind_put_ne _ _ _ _ (by simp), prefFind_put_ne _ _ _ _ (by simp),
      prefFind_put_ne _ _ _ _ (by simp), prefFind_put_eq]
  · unfold prefGetString
    rw [hns _ (fun i => by simp)]
    rw [prefFind_put_ne _ _ _ _ (by simp), prefFind_put_ne _ _ _ _ (by simp),
      prefFind_put_ne _ _ _ _ (by simp), prefFind_put_ne _ _ _ _ (by simp),
      prefFind_put_ne _ _ _ _ (by simp), prefFind_put_ne _ _ _ _ (by simp),
      prefFind_put_ne _ _ _ _ (by simp), prefFind_put_ne _ _ _ _ (by simp),
      prefFind_put_eq]
  · unfold prefGetString
    rw [hns _ (fun i => by simp)]
    rw [prefFind_put_ne _ _ _ _ (by simp), prefFind_put_ne _ _ _ _ (by simp),
      prefFind_put_ne _ _ _ _ (by simp), prefFind_put_ne _ _ _ _ (by simp),
      prefFind_put_ne _ _ _ _ (by simp), prefFind_put_ne _ _ _ _ (by simp),
      prefFind_put_ne _ _ _ _ (by simp), prefFind_put_eq]
  · apply List.ext_getElem
    · simpa using hlen.symm
    · intro j hj1 hj2
      simp only [List.getElem_map, List.getElem_range]
      simp only [List.length_map, List.length_range] at hj1
      by_cases hcase : (j : Int) < cnt
      · rw [if_pos hcase]
        unfold prefGetString
        rw [hname j (by omega)]
        rw [list_getD_eq _ _ (by omega)]
      · rw [if_neg hcase]
        rw [list_getD_eq _ _ (by omega)]
  · unfold prefGetInt
    rw [hns _ (fun i => by simp)]
    rw [prefFind_put_ne _ _ _ _ (by simp), prefFind_put_ne _ _ _ _ (by simp),
      prefFind_put_ne _ _ _ _ (by simp), prefFind_put_ne _ _ _ _ (by simp),
      prefFind_put_ne _ _ _ _ (by simp), prefFind_put_eq]
  · unfold prefGetBool
    rw [hns _ (fun i => by simp)]
    rw [prefFind_put_ne _ _ _ _ (by simp), prefFind_put_ne _ _ _ _ (by simp),
      prefFind_put_ne _ _ _ _ (by simp), prefFind_put_ne _ _ _ _ (by simp),
      prefFind_put_eq]
  · unfold prefGetInt
    rw [hns _ (fun i => by simp)]
    rw [prefFind_put_ne _ _ _ _ (by simp), prefFind_put_ne _ _ _ _ (by simp),
      prefFind_put_ne _ _ _ _ (by simp), prefFind_put_eq]
  · unfold prefGetInt
    rw [hns _ (fun i => by simp)]
    rw [prefFind_put_ne _ _ _ _ (by simp), prefFind_put_ne _ _ _ _ (by simp),
      prefFind_put_eq]
  · unfold prefGetInt
    rw [hns _ (fun i => by simp)]
    rw [prefFind_put_ne _ _ _ _ (by simp), prefFind_put_eq]
  · unfold prefGetInt
    rw [hns _ (fun i => by simp)]
    rw [prefFind_put_eq]

/-- On an absent or empty `Preferences` store the original sketch's
`loadSettings` produces every hard-coded default and cannot raise. -/
theorem origSettings_load_empty (priorNames : List String) :
    loadSettingsStore [] priorNames =
      { wifiEnabled := true
        ssid := ""
        password := ""
        sensorCount := 0
        sensorNames := (List.range 10).map fun (i : Nat) => priorNames.getD i ""
        sampleInterval := 60
        deepSleepEnabled := true
        touchCalMinX := 380
        touchCalMinY := 240
        touchCalMaxX := 3800
        touchCalMaxY := 3800 } := by
  have h0 : ∀ k, prefFind [] k = none := fun k => rfl
  unfold loadSettingsStore prefGetBool prefGetInt prefGetString
  simp only [h0, OrigSettings.mk.injEq, true_and, and_true]
  apply List.map_congr_left
  intro i _
  rw [if_neg (by omega)]

/-- C4 (witness): the replay characterisation applied to a concrete
one-record log. -/
theorem loadData_oldest_prefix_and_unused_witness :
    retainedList (loadData emptyDataBuffer [LogLine.line (.stamp 7) [.num 25]]) =
      (([LogLine.line (.stamp 7) [.num 25]].filterMap lineFields).take 1000).map
        parseLinePair :=
  loadData_oldest_prefix_and_unused.1 [LogLine.line (.stamp 7) [.num 25]]
